import Mathlib

/-!
Verification of the mysqld_exporter scrape-orchestration core.

This file shallowly embeds the per-request pipeline of `mysqld_exporter.go`
(deadline derivation, probe selection, fail-open timeout handling) and the
adaptive replication-status parser of `collector/slave_status.go` (dialect
resolution, by-name column extraction, generic metric synthesis, MariaDB
GTID parsing), and proves the stated properties about those embeddings.

Numeric values that the Go code holds in `float64` are modelled as exact
rationals (`ℚ`); emitted Prometheus metrics are modelled as plain tuples of
their fully-qualified name, help text, label names, label values, value
type and numeric value.
-/

/-- Prometheus metric value kinds used by the embedded collectors
(`prometheus.UntypedValue` and `prometheus.GaugeValue`). -/
inductive MetricValueType where
  | untyped : MetricValueType
  | gauge : MetricValueType
deriving DecidableEq, Repr

/-- A constant metric as produced by `prometheus.MustNewConstMetric`:
the descriptor's fully-qualified name, help string and variable label names,
together with the label values, value type and numeric value supplied at
construction. -/
structure Metric where
  fqName : String
  help : String
  variableLabels : List String
  labelValues : List String
  valueType : MetricValueType
  value : ℚ
deriving DecidableEq, Repr

/-- Embedding of `prometheus.BuildFQName`: joins namespace, subsystem and
name with underscores, skipping empty components; an empty name yields the
empty string. -/
def buildFQName (ns subsystem name : String) : String :=
  if name = "" then ""
  else if ns ≠ "" ∧ subsystem ≠ "" then ns ++ "_" ++ subsystem ++ "_" ++ name
  else if ns ≠ "" then ns ++ "_" ++ name
  else if subsystem ≠ "" then subsystem ++ "_" ++ name
  else name

/-- Modelled from the spec: the collector package's metric namespace
constant (declared outside the provided sources); its concrete value does
not affect any claim proved here. -/
def collectorNamespace : String := "mysql"

/-- Numeric value of a list of decimal digit characters, most significant
first (the accumulator loop used by the decimal parsers below). -/
def digitsVal (l : List Char) : Nat :=
  l.foldl (fun a c => a * 10 + (c.toNat - 48)) 0

/-- Splitting a character list at every occurrence of a separator character
(the behaviour of Go's `strings.Split` for a one-character separator). -/
def splitChars (sep : Char) : List Char → List (List Char)
  | [] => [[]]
  | c :: rest =>
      let r := splitChars sep rest
      if c = sep then [] :: r
      else (c :: r.headD []) :: r.tail

/-- Model of Go's `strings.Split` with a one-character separator: always a
non-empty list of fields; an empty input yields one empty field. -/
def goSplit (s : String) (sep : Char) : List String :=
  (splitChars sep s.toList).map (fun l => String.mk l)

/-- ASCII lower-casing of one character. -/
def charToLower (c : Char) : Char :=
  if 'A' ≤ c ∧ c ≤ 'Z' then Char.ofNat (c.toNat + 32) else c

/-- Model of Go's `strings.ToLower` on the ASCII fragment, which covers
every column and metric name in scope here. -/
def goToLower (s : String) : String :=
  String.mk (s.toList.map charToLower)

/-- Unsigned decimal parser: `digits`, `digits.digits`, `digits.` or
`.digits`, as an exact rational. -/
def parseUnsignedDecimal (l : List Char) : Option ℚ :=
  match l.span Char.isDigit with
  | (ip, []) => if ip = [] then none else some (digitsVal ip : ℚ)
  | (ip, '.' :: fp) =>
      if fp.all Char.isDigit ∧ (ip ≠ [] ∨ fp ≠ []) then
        some ((digitsVal ip : ℚ) + (digitsVal fp : ℚ) / ((10 : ℚ) ^ fp.length))
      else none
  | _ => none

/-- Model of `strconv.ParseFloat` restricted to plain signed decimal
notation, returning an exact rational; inputs outside that fragment are
rejected. -/
def strconvParseFloat (s : String) : Option ℚ :=
  match s.toList with
  | [] => none
  | '-' :: rest => (parseUnsignedDecimal rest).map (fun q => -q)
  | '+' :: rest => parseUnsignedDecimal rest
  | l => parseUnsignedDecimal l

/-- Modelled from the spec: the collector package helper (`parseStatus`,
declared outside the provided sources) that interprets a status column's
raw value as a number, returning nothing when the raw value cannot be
parsed as a number. -/
def parseStatus (data : String) : Option ℚ :=
  strconvParseFloat data

/-- Model of `strconv.ParseUint(s, 10, 64)`: a non-empty all-digit string
whose value fits in 64 bits; anything else is an error. -/
def parseUint64 (s : String) : Option Nat :=
  if s.toList ≠ [] ∧ s.toList.all Char.isDigit then
    let n := digitsVal s.toList
    if n < 2 ^ 64 then some n else none
  else none

/-- A probe as the request handler sees it: only its stable identity
(`collector.Scraper.Name`) matters to probe selection. -/
structure Scraper where
  name : String
deriving DecidableEq, Repr

/-- Embedding of `filterScrapers` from `mysqld_exporter.go`: with a
non-empty `collect[]` parameter list, keep the scrapers whose name appears
in it (registry order preserved); if the filtered list is empty — also when
the parameter list itself was empty — fall back to the full input list. -/
def filterScrapers (scrapers : List Scraper) (collectParams : List String) : List Scraper :=
  let filteredScrapers :=
    if 0 < collectParams.length then
      scrapers.filter (fun s => s.name ∈ collectParams)
    else []
  if filteredScrapers.length = 0 then scrapers else filteredScrapers

/-- The failure modes of `getScrapeTimeoutSeconds`: an unparsable header,
a negative timeout, and an offset that leaves no time to scrape. -/
inductive TimeoutError where
  | parseError : TimeoutError
  | invalidTimeout : TimeoutError
  | timeoutTooTight : TimeoutError
deriving DecidableEq, Repr

/-- Embedding of `getScrapeTimeoutSeconds` from `mysqld_exporter.go`.
The `X-Prometheus-Scrape-Timeout-Seconds` header is the string `header`
(the empty string when absent, as `http.Header.Get` reports it); the Go
function returns a `(float64, error)` pair, modelled as `ℚ × Option
TimeoutError`. -/
def getScrapeTimeoutSeconds (header : String) (offset : ℚ) : ℚ × Option TimeoutError :=
  match (if header = "" then some 0 else strconvParseFloat header) with
  | none => (0, some TimeoutError.parseError)
  | some timeoutSeconds =>
      if timeoutSeconds = 0 then (0, none)
      else if timeoutSeconds < 0 then (0, some TimeoutError.invalidTimeout)
      else if offset ≥ timeoutSeconds then (0, some TimeoutError.timeoutTooTight)
      else (timeoutSeconds - offset, none)

/-- Outcome of the timeout phase of `newHandler`: what was logged, whether
a derived deadline was attached to the request context, whether an HTTP
error was produced on account of the timeout, and whether the handler went
on to run the scrape. -/
structure HandlerTimeoutOutcome where
  loggedTimeoutError : Option TimeoutError
  derivedDeadline : Option ℚ
  httpErrorFromTimeout : Option TimeoutError
  scrapeRun : Bool
deriving DecidableEq, Repr

/-- Embedding of the timeout-handling prefix of `newHandler` from
`mysqld_exporter.go`: derive the timeout, log a non-nil error, wrap the
context only when the derived value is positive, and proceed to the scrape
unconditionally — no HTTP error is emitted on this path. -/
def newHandlerTimeoutPhase (header : String) (offset : ℚ) : HandlerTimeoutOutcome :=
  let r := getScrapeTimeoutSeconds header offset
  { loggedTimeoutError := r.2
    derivedDeadline := if 0 < r.1 then some r.1 else none
    httpErrorFromTimeout := none
    scrapeRun := true }

/-- The subsystem constant `slaveStatus` from `collector/slave_status.go`. -/
def slaveStatus : String := "slave_status"

/-- The ordered status query variants `slaveStatusQueries` from
`collector/slave_status.go`. -/
def slaveStatusQueries : List String :=
  ["SHOW ALL SLAVES STATUS", "SHOW SLAVE STATUS", "SHOW REPLICA STATUS"]

/-- The ordered lock-hint suffixes `slaveStatusQuerySuffixes` from
`collector/slave_status.go`. -/
def slaveStatusQuerySuffixes : List String :=
  [" NONBLOCKING", " NOLOCK", ""]

/-- A fake database connection for dialect resolution: maps a query string
to `some` rows (of type `α`) on success, `none` on error. -/
def FakeDB (α : Type) : Type := String → Option α

/-- One query attempt against the fake connection, recording the Go pair
`(slaveStatusRows, err)` as a single `Except` value whose error carries the
failing query string. -/
def runQuery (db : FakeDB α) (q : String) : Except String α :=
  match db q with
  | some r => Except.ok r
  | none => Except.error q

/-- Embedding of the inner suffix loop of `ScrapeSlaveStatus.Scrape`
(`for _, suffix := range slaveStatusQuerySuffixes`): reassign the
rows/error state for each suffixed query in turn, breaking on the first
success. Returns the final state together with the list of queries
attempted by this loop, in order. -/
def trySuffixes (db : FakeDB α) (query : String) (st : Except String α) :
    List String → Except String α × List String
  | [] => (st, [])
  | s :: rest =>
      match db (query ++ s) with
      | some r => (Except.ok r, [query ++ s])
      | none =>
          let p := trySuffixes db query (Except.error (query ++ s)) rest
          (p.1, (query ++ s) :: p.2)

/-- Embedding of the outer variant loop of `ScrapeSlaveStatus.Scrape`
(`for _, query := range slaveStatusQueries`): try the bare variant; on
success break out of the loop; on error run the suffix loop and then —
exactly as in the source, which has no break after the inner loop —
continue with the next variant regardless of the suffix loop's outcome.
Returns the final rows/error state and the attempted queries in order. -/
def tryQueries (db : FakeDB α) (st : Except String α) :
    List String → Except String α × List String
  | [] => (st, [])
  | q :: rest =>
      match db q with
      | some r => (Except.ok r, [q])
      | none =>
          let p := trySuffixes db q (Except.error q) slaveStatusQuerySuffixes
          let p2 := tryQueries db p.1 rest
          (p2.1, q :: (p.2 ++ p2.2))

/-- Dialect resolution of `ScrapeSlaveStatus.Scrape`: run the variant loop
over `slaveStatusQueries`. The initial state models the Go variables before
the first attempt; it is overwritten by the first query since the variant
list is non-empty. -/
def resolveSlaveStatusQuery (db : FakeDB α) : Except String α × List String :=
  tryQueries db (Except.error "") slaveStatusQueries

/-- Embedding of `columnIndex` from `collector/slave_status.go`: index of
the first occurrence of `colName` in `slaveCols`, `-1` when absent. -/
def columnIndex (slaveCols : List String) (colName : String) : Int :=
  match slaveCols with
  | [] => -1
  | c :: rest =>
      if c = colName then 0
      else
        let r := columnIndex rest colName
        if r = -1 then -1 else r + 1

/-- Embedding of `columnValue` from `collector/slave_status.go`: the raw
value stored at the column's index, or the empty string when the column is
absent. -/
def columnValue (scanArgs : List String) (slaveCols : List String) (colName : String) : String :=
  let ci := columnIndex slaveCols colName
  if ci = -1 then "" else scanArgs.getD ci.toNat ""

/-- The generic per-column metric of `ScrapeSlaveStatus.Scrape`: name built
from the lowercased column name, the four replication labels, untyped
value. -/
def genericSlaveMetric (labels : List String) (col : String) (value : ℚ) : Metric :=
  { fqName := buildFQName collectorNamespace slaveStatus (goToLower col)
    help := "Generic metric from SHOW SLAVE STATUS."
    variableLabels := ["master_host", "master_uuid", "channel_name", "connection_name"]
    labelValues := labels
    valueType := MetricValueType.untyped
    value := value }

/-- Embedding of the per-column loop of `ScrapeSlaveStatus.Scrape`
(`for i, col := range slaveCols`): for each (column, raw value) pair emit
one generic metric when the raw value parses as a number, silently skip it
otherwise. -/
def genericSlaveMetrics (labels : List String) : List (String × String) → List Metric
  | [] => []
  | (col, raw) :: rest =>
      match parseStatus raw with
      | some value => genericSlaveMetric labels col value :: genericSlaveMetrics labels rest
      | none => genericSlaveMetrics labels rest

/-- The per-entry GTID metric of `parseMariaDBGtid`: gauge named from the
lowercased column name, with domain and server as extra labels and the
sequence number as the value. -/
def gtidMetric (name mh mu ch cn domainID serverID : String) (n : Nat) : Metric :=
  { fqName := buildFQName collectorNamespace slaveStatus (goToLower name)
    help := name ++ " metric from SHOW SLAVE STATUS."
    variableLabels := ["master_host", "master_uuid", "channel_name", "connection_name",
      "domain_id", "server_id"]
    labelValues := [mh, mu, ch, cn, domainID, serverID]
    valueType := MetricValueType.gauge
    value := (n : ℚ) }

/-- Embedding of the loop body of `parseMariaDBGtid` over the
comma-separated entries: skip an entry that does not split into exactly
three dash-separated parts, skip an entry whose third part fails
`strconv.ParseUint`, emit one gauge per remaining entry. -/
def gtidLoop (name mh mu ch cn : String) : List String → List Metric
  | [] => []
  | gtid :: rest =>
      let parts := goSplit gtid '-'
      if parts.length ≠ 3 then gtidLoop name mh mu ch cn rest
      else
        match parseUint64 (parts.getD 2 "") with
        | none => gtidLoop name mh mu ch cn rest
        | some n =>
            gtidMetric name mh mu ch cn (parts.getD 0 "") (parts.getD 1 "") n ::
              gtidLoop name mh mu ch cn rest

/-- Embedding of `parseMariaDBGtid` from `collector/slave_status.go`:
nothing for an empty value, otherwise the loop over the comma-split
entries. -/
def parseMariaDBGtid (name value mh mu ch cn : String) : List Metric :=
  if value = "" then []
  else gtidLoop name mh mu ch cn (goSplit value ',')

/-- The `masterUUID` computation of `ScrapeSlaveStatus.Scrape`: the
`Master_UUID` column's value, falling back to `Source_UUID` when that is
empty (also when absent). -/
def resolvedMasterUUID (row : List (String × String)) : String :=
  let v := columnValue (row.map Prod.snd) (row.map Prod.fst) "Master_UUID"
  if v = "" then columnValue (row.map Prod.snd) (row.map Prod.fst) "Source_UUID" else v

/-- The `masterHost` computation of `ScrapeSlaveStatus.Scrape`: the
`Master_Host` column's value, falling back to `Source_Host` when that is
empty (also when absent). -/
def resolvedMasterHost (row : List (String × String)) : String :=
  let v := columnValue (row.map Prod.snd) (row.map Prod.fst) "Master_Host"
  if v = "" then columnValue (row.map Prod.snd) (row.map Prod.fst) "Source_Host" else v

/-- The `channelName` lookup of `ScrapeSlaveStatus.Scrape` (MySQL and
Percona). -/
def resolvedChannelName (row : List (String × String)) : String :=
  columnValue (row.map Prod.snd) (row.map Prod.fst) "Channel_Name"

/-- The `connectionName` lookup of `ScrapeSlaveStatus.Scrape` (MariaDB). -/
def resolvedConnectionName (row : List (String × String)) : String :=
  columnValue (row.map Prod.snd) (row.map Prod.fst) "Connection_name"

/-- The four label values shared by every generic metric of a row. -/
def slaveStatusLabelValues (row : List (String × String)) : List String :=
  [resolvedMasterHost row, resolvedMasterUUID row, resolvedChannelName row,
    resolvedConnectionName row]

/-- Embedding of the per-row body of `ScrapeSlaveStatus.Scrape`: a status
result row is the list of (column name, raw value) pairs; the emitted
metrics are the generic per-column metrics followed by the GTID metrics of
the `Gtid_IO_Pos` and `Gtid_Slave_Pos` columns. -/
def processSlaveStatusRow (row : List (String × String)) : List Metric :=
  genericSlaveMetrics (slaveStatusLabelValues row) row ++
    parseMariaDBGtid "Gtid_IO_Pos"
      (columnValue (row.map Prod.snd) (row.map Prod.fst) "Gtid_IO_Pos")
      (resolvedMasterHost row) (resolvedMasterUUID row) (resolvedChannelName row)
      (resolvedConnectionName row) ++
    parseMariaDBGtid "Gtid_Slave_Pos"
      (columnValue (row.map Prod.snd) (row.map Prod.fst) "Gtid_Slave_Pos")
      (resolvedMasterHost row) (resolvedMasterUUID row) (resolvedChannelName row)
      (resolvedConnectionName row)

/-- First-match lookup of a column's raw value in a row of (column name,
raw value) pairs; `none` when the column is absent. -/
def lookupColumn (row : List (String × String)) (c : String) : Option String :=
  (row.find? (fun p => p.1 == c)).map Prod.snd

/-- The master-host / master-uuid preference rule as the specification
words it: the primary column's value when that column is present with a
non-empty value, otherwise the secondary column's value, otherwise the
empty string. -/
def specPreferredValue (row : List (String × String)) (primary secondary : String) : String :=
  match lookupColumn row primary with
  | some v => if v ≠ "" then v else (lookupColumn row secondary).getD ""
  | none => (lookupColumn row secondary).getD ""

/-- The per-entry GTID mapping as the specification words it: a well-formed
entry `<domain>-<server>-<sequence>` yields exactly one metric, a malformed
entry yields none. -/
def gtidEntryMetric (name mh mu ch cn : String) (gtid : String) : Option Metric :=
  let parts := goSplit gtid '-'
  if parts.length = 3 then
    (parseUint64 (parts.getD 2 "")).map
      (fun n => gtidMetric name mh mu ch cn (parts.getD 0 "") (parts.getD 1 "") n)
  else none

/-- A fake connection on which exactly one query succeeds: the first
variant with the highest-priority lock-hint suffix. Every bare variant and
every other suffixed query fails. -/
def slaveDialectCexDb : FakeDB Unit :=
  fun q => if q = "SHOW ALL SLAVES STATUS NONBLOCKING" then some () else none

/-- A fake connection on which exactly the query `SHOW SLAVE STATUS`
succeeds. -/
def slaveDialectWitnessDb : FakeDB Unit :=
  fun q => if q = "SHOW SLAVE STATUS" then some () else none

/-- A status row with a duplicated `Master_Host` column. -/
def columnOrderRow1 : List (String × String) :=
  [("Master_Host", "a"), ("Master_Host", "b"), ("Seconds_Behind_Master", "1")]

/-- The same pairs as `columnOrderRow1` with the two duplicated columns
swapped. -/
def columnOrderRow2 : List (String × String) :=
  [("Master_Host", "b"), ("Master_Host", "a"), ("Seconds_Behind_Master", "1")]

/-- A duplicate-free status row. -/
def columnOrderWRow1 : List (String × String) :=
  [("Master_Host", "h"), ("Slave_IO_Running", "1")]

/-- A permutation of `columnOrderWRow1`. -/
def columnOrderWRow2 : List (String × String) :=
  [("Slave_IO_Running", "1"), ("Master_Host", "h")]

/-- The deadline deriver returns an error only together with the value 0. -/
theorem getScrapeTimeoutSeconds_error_fst (header : String) (offset : ℚ)
    (e : TimeoutError) (he : (getScrapeTimeoutSeconds header offset).2 = some e) :
    (getScrapeTimeoutSeconds header offset).1 = 0 := by
  unfold getScrapeTimeoutSeconds at he ⊢
  generalize (if header = "" then some (0 : ℚ) else strconvParseFloat header) = x at he ⊢
  cases x with
  | none => rfl
  | some t =>
      simp only at he ⊢
      split_ifs at he ⊢
      all_goals rfl

/-- C2: for every parsed timeout value t and offset o, the deadline deriver
returns no deadline (value 0, no error) when the header is absent or t is
exactly 0, fails with `invalidTimeout` when t < 0, fails with
`timeoutTooTight` when 0 < t and o ≥ t, and otherwise returns exactly t − o
with no error. -/
theorem scrape_timeout_cases (h : String) (t o : ℚ)
    (hp : strconvParseFloat h = some t) :
    getScrapeTimeoutSeconds "" o = (0, none) ∧
    (t = 0 → getScrapeTimeoutSeconds h o = (0, none)) ∧
    (t < 0 → getScrapeTimeoutSeconds h o = (0, some TimeoutError.invalidTimeout)) ∧
    (0 < t → o ≥ t → getScrapeTimeoutSeconds h o = (0, some TimeoutError.timeoutTooTight)) ∧
    (0 < t → o < t → getScrapeTimeoutSeconds h o = (t - o, none)) := by
  have hne : h ≠ "" := by
    intro he
    rw [he] at hp
    exact Option.noConfusion hp
  refine ⟨by simp [getScrapeTimeoutSeconds], ?_, ?_, ?_, ?_⟩
  · intro h0
    simp [getScrapeTimeoutSeconds, hne, hp, h0]
  · intro hlt
    simp [getScrapeTimeoutSeconds, hne, hp, hlt, hlt.ne]
  · intro hpos hge
    have : ¬ t < 0 := not_lt.mpr hpos.le
    simp [getScrapeTimeoutSeconds, hne, hp, hpos.ne', this, hge]
  · intro hpos holt
    have h1 : ¬ t < 0 := not_lt.mpr hpos.le
    have h2 : ¬ o ≥ t := not_le.mpr holt
    simp [getScrapeTimeoutSeconds, hne, hp, hpos.ne', h1, h2]

/-- Witness for `scrape_timeout_cases` at header "2", offset 1/4. -/
theorem scrape_timeout_cases_witness :
    getScrapeTimeoutSeconds "" (1/4) = (0, none) ∧
    getScrapeTimeoutSeconds "2" (1/4) = (2 - 1/4, none) := by
  have h := scrape_timeout_cases "2" 2 (1/4) (by decide)
  exact ⟨h.1, h.2.2.2.2 (by norm_num) (by norm_num)⟩

/-- C8: deadline derivation failure is fail-open — whenever the timeout
header yields an error (unparsable, negative, or too tight), the handler
logs that error, attaches no derived deadline to the request context,
produces no HTTP error on account of the timeout, and still runs the
scrape. -/
theorem handler_fail_open (header : String) (offset : ℚ) (e : TimeoutError)
    (he : (getScrapeTimeoutSeconds header offset).2 = some e) :
    newHandlerTimeoutPhase header offset =
      { loggedTimeoutError := some e
        derivedDeadline := none
        httpErrorFromTimeout := none
        scrapeRun := true } := by
  have h0 := getScrapeTimeoutSeconds_error_fst header offset e he
  simp only [newHandlerTimeoutPhase]
  rw [he, h0]
  norm_num

/-- Witness for `handler_fail_open`: a negative header timeout. -/
theorem handler_fail_open_witness :
    newHandlerTimeoutPhase "-1" (1/4) =
      { loggedTimeoutError := some TimeoutError.invalidTimeout
        derivedDeadline := none
        httpErrorFromTimeout := none
        scrapeRun := true } :=
  handler_fail_open "-1" (1/4) TimeoutError.invalidTimeout (by decide)

/-- C3: an inclusion list none of whose identities matches any registered
scraper selects the full registry list, never an empty set, and an empty
inclusion list also selects the full registry list. -/
theorem filter_scrapers_unknown_fallback (scrapers : List Scraper)
    (params : List String) (hne : params ≠ [])
    (hu : ∀ s ∈ scrapers, s.name ∉ params) :
    filterScrapers scrapers params = scrapers ∧
    filterScrapers scrapers [] = scrapers := by
  constructor
  · have hf : scrapers.filter (fun s => decide (s.name ∈ params)) = [] := by
      rw [List.filter_eq_nil_iff]
      intro s hs
      simpa using hu s hs
    simp [filterScrapers, List.length_pos.mpr hne, hf]
  · simp [filterScrapers]

/-- Witness for `filter_scrapers_unknown_fallback`: one scraper, one
unknown identity. -/
theorem filter_scrapers_unknown_fallback_witness :
    filterScrapers [⟨"slave_status"⟩] ["no_such_probe"] = [⟨"slave_status"⟩] ∧
    filterScrapers [⟨"slave_status"⟩] [] = [⟨"slave_status"⟩] :=
  filter_scrapers_unknown_fallback [⟨"slave_status"⟩] ["no_such_probe"]
    (by decide) (by decide)

/-- C4: probe selection is idempotent and order-stable — an inclusion list
equal to the full enabled set selects exactly what no inclusion list
selects, in registry order. -/
theorem filter_scrapers_idempotent (scrapers : List Scraper) :
    filterScrapers scrapers (scrapers.map Scraper.name) =
      filterScrapers scrapers [] := by
  cases scrapers with
  | nil => rfl
  | cons a t =>
      have hall : (a :: t).filter
          (fun s => decide (s.name ∈ (a :: t).map Scraper.name)) = a :: t := by
        rw [List.filter_eq_self]
        intro s hs
        rw [decide_eq_true_eq]
        exact List.mem_map_of_mem Scraper.name hs
      have hc1 : 0 < ((a :: t).map Scraper.name).length := by simp
      simp only [filterScrapers]
      rw [if_pos hc1, hall]
      simp

/-- C9: the selected probe list is a sublist of the registry list (registry
order preserved, nothing added), and it is non-empty whenever the registry
list is non-empty. -/
theorem filter_scrapers_sublist_nonempty (scrapers : List Scraper)
    (params : List String) :
    (filterScrapers scrapers params).Sublist scrapers ∧
    (scrapers ≠ [] → filterScrapers scrapers params ≠ []) := by
  unfold filterScrapers
  by_cases hp : 0 < params.length
  · simp only [if_pos hp]
    by_cases hz :
        (scrapers.filter (fun s => decide (s.name ∈ params))).length = 0
    · simp only [if_pos hz]
      exact ⟨List.Sublist.refl scrapers, fun h => h⟩
    · simp only [if_neg hz]
      refine ⟨List.filter_sublist scrapers, fun _ hnil => hz ?_⟩
      rw [hnil]
      rfl
  · simp only [if_neg hp, List.length_nil]
    exact ⟨List.Sublist.refl scrapers, fun h => h⟩

/-- Witness for `filter_scrapers_sublist_nonempty`: a two-element registry
with a one-element inclusion list. -/
theorem filter_scrapers_sublist_nonempty_witness :
    (filterScrapers [⟨"a"⟩, ⟨"b"⟩] ["b"]).Sublist [⟨"a"⟩, ⟨"b"⟩] ∧
    filterScrapers [⟨"a"⟩, ⟨"b"⟩] ["b"] ≠ [] :=
  ⟨(filter_scrapers_sublist_nonempty [⟨"a"⟩, ⟨"b"⟩] ["b"]).1,
    (filter_scrapers_sublist_nonempty [⟨"a"⟩, ⟨"b"⟩] ["b"]).2 (by decide)⟩

/-- `columnIndex` never returns a negative index other than the sentinel
`-1`. -/
theorem columnIndex_nonneg (cols : List String) (c : String)
    (h : columnIndex cols c ≠ -1) : 0 ≤ columnIndex cols c := by
  induction cols with
  | nil => simp [columnIndex] at h
  | cons a t ih =>
      by_cases ha : a = c
      · simp [columnIndex, ha]
      · simp only [columnIndex, if_neg ha] at h ⊢
        by_cases ht : columnIndex t c = -1
        · simp [ht] at h
        · have := ih ht
          simp only [if_neg ht]
          omega

/-- The positional `columnValue` of the source equals the first-match
lookup of the (column name, raw value) pair list. -/
theorem columnValue_pairs (row : List (String × String)) (c : String) :
    columnValue (row.map Prod.snd) (row.map Prod.fst) c =
      (lookupColumn row c).getD "" := by
  induction row with
  | nil => rfl
  | cons p t ih =>
      by_cases hp : p.1 = c
      · have hbeq : (p.1 == c) = true := beq_iff_eq.mpr hp
        simp [columnValue, columnIndex, hp, lookupColumn, List.find?_cons_of_pos, hbeq]
      · have hbeq : (p.1 == c) = false := beq_eq_false_iff_ne.mpr hp
        have hlk : lookupColumn (p :: t) c = lookupColumn t c := by
          simp [lookupColumn, List.find?_cons_of_neg, hbeq]
        rw [hlk]
        by_cases hr : columnIndex (t.map Prod.fst) c = -1
        · have hl : columnValue ((p :: t).map Prod.snd) ((p :: t).map Prod.fst) c = "" := by
            simp [columnValue, columnIndex, hp, hr]
          have hl2 : columnValue (t.map Prod.snd) (t.map Prod.fst) c = "" := by
            simp [columnValue, hr]
          rw [hl, ← ih, hl2]
        · have hge := columnIndex_nonneg (t.map Prod.fst) c hr
          have hne1 : columnIndex (t.map Prod.fst) c + 1 ≠ -1 := by omega
          have htn : (columnIndex (t.map Prod.fst) c + 1).toNat =
              (columnIndex (t.map Prod.fst) c).toNat + 1 := by omega
          have hl : columnValue ((p :: t).map Prod.snd) ((p :: t).map Prod.fst) c =
              (t.map Prod.snd).getD (columnIndex (t.map Prod.fst) c).toNat "" := by
            simp only [columnValue, columnIndex, List.map_cons, if_neg hp, if_neg hr,
              if_neg hne1, htn]
            rw [List.getD_cons_succ]
          have hl2 : columnValue (t.map Prod.snd) (t.map Prod.fst) c =
              (t.map Prod.snd).getD (columnIndex (t.map Prod.fst) c).toNat "" := by
            simp only [columnValue, if_neg hr]
          rw [hl, ← hl2, ih]

/-- C10: the master_host label is the `Master_Host` column's value when
that column is present with a non-empty value, otherwise the `Source_Host`
column's value, otherwise the empty string; the master_uuid label follows
the same preference over `Master_UUID` then `Source_UUID`. -/
theorem master_host_preference (row : List (String × String)) :
    resolvedMasterHost row = specPreferredValue row "Master_Host" "Source_Host" ∧
    resolvedMasterUUID row = specPreferredValue row "Master_UUID" "Source_UUID" := by
  constructor
  · unfold resolvedMasterHost specPreferredValue
    rw [columnValue_pairs, columnValue_pairs]
    cases hlp : lookupColumn row "Master_Host" with
    | none => simp
    | some v =>
        by_cases hv : v = ""
        · simp [hv]
        · simp [hv]
  · unfold resolvedMasterUUID specPreferredValue
    rw [columnValue_pairs, columnValue_pairs]
    cases hlp : lookupColumn row "Master_UUID" with
    | none => simp
    | some v =>
        by_cases hv : v = ""
        · simp [hv]
        · simp [hv]

/-- The generic per-column loop is the filterMap of the per-column metric
over the row. -/
theorem genericSlaveMetrics_eq_filterMap (labels : List String)
    (l : List (String × String)) :
    genericSlaveMetrics labels l =
      l.filterMap (fun cv => (parseStatus cv.2).map (genericSlaveMetric labels cv.1)) := by
  induction l with
  | nil => rfl
  | cons p t ih =>
      cases p with
      | mk col raw =>
          cases hps : parseStatus raw with
          | none => simp [genericSlaveMetrics, hps, List.filterMap_cons, ih]
          | some v => simp [genericSlaveMetrics, hps, List.filterMap_cons, ih]

/-- The generic per-column loop emits one metric per parseable column. -/
theorem genericSlaveMetrics_length (labels : List String)
    (l : List (String × String)) :
    (genericSlaveMetrics labels l).length =
      (l.filter (fun cv => (parseStatus cv.2).isSome)).length := by
  induction l with
  | nil => rfl
  | cons p t ih =>
      cases p with
      | mk col raw =>
          cases hps : parseStatus raw with
          | none => simp [genericSlaveMetrics, hps, List.filter_cons, ih]
          | some v => simp [genericSlaveMetrics, hps, List.filter_cons, ih]

/-- C6: for every column of a status result row, exactly one generic
metric — named from the lowercased column name, valued at the parsed
number — is synthesized if and only if the raw value parses as a number;
an unparsable column contributes no metric (the loop is total, so it
causes no error). -/
theorem generic_metric_per_column (row : List (String × String)) :
    genericSlaveMetrics (slaveStatusLabelValues row) row =
      row.filterMap (fun cv =>
        (parseStatus cv.2).map (genericSlaveMetric (slaveStatusLabelValues row) cv.1)) ∧
    (genericSlaveMetrics (slaveStatusLabelValues row) row).length =
      (row.filter (fun cv => (parseStatus cv.2).isSome)).length :=
  ⟨genericSlaveMetrics_eq_filterMap (slaveStatusLabelValues row) row,
    genericSlaveMetrics_length (slaveStatusLabelValues row) row⟩

/-- The GTID entry loop is the filterMap of the per-entry mapping over the
split entries. -/
theorem gtidLoop_eq_filterMap (name mh mu ch cn : String)
    (entries : List String) :
    gtidLoop name mh mu ch cn entries =
      entries.filterMap (gtidEntryMetric name mh mu ch cn) := by
  induction entries with
  | nil => rfl
  | cons g t ih =>
      simp only [gtidLoop, gtidEntryMetric, List.filterMap_cons]
      by_cases h3 : (goSplit g '-').length = 3
      · rw [if_neg (not_not_intro h3), if_pos h3]
        cases hpu : parseUint64 ((goSplit g '-').getD 2 "") with
        | none => exact ih
        | some n =>
            rw [ih]
            rfl
      · rw [if_pos h3, if_neg h3]
        exact ih

/-- C7: each well-formed comma-separated `<domain>-<server>-<sequence>`
entry yields exactly one metric with domain and server as extra labels and
the sequence as value — `"5-1-100,6-2-200"` yields exactly two such
metrics — while a malformed entry such as `"5-1"` contributes zero metrics
without stopping the processing of the remaining entries. -/
theorem gtid_compound_parsing (name mh mu ch cn : String) :
    parseMariaDBGtid name "5-1-100,6-2-200" mh mu ch cn =
      [gtidMetric name mh mu ch cn "5" "1" 100,
        gtidMetric name mh mu ch cn "6" "2" 200] ∧
    parseMariaDBGtid name "5-1,6-2-200" mh mu ch cn =
      [gtidMetric name mh mu ch cn "6" "2" 200] ∧
    ∀ value, parseMariaDBGtid name value mh mu ch cn =
      if value = "" then []
      else (goSplit value ',').filterMap (gtidEntryMetric name mh mu ch cn) := by
  refine ⟨rfl, rfl, ?_⟩
  intro value
  by_cases hv : value = ""
  · simp [parseMariaDBGtid, hv]
  · simp [parseMariaDBGtid, hv, gtidLoop_eq_filterMap]

/-- C1 (amended): a variant whose bare query succeeds is used and stops the
search — no later variant or suffix is attempted; within a failing
variant, the first lock-hint suffix that succeeds stops the suffix search;
but after a variant's bare query fails, the next variant is attempted
regardless of whether one of the suffixes succeeded. -/
theorem slave_dialect_amended {α : Type} (db : FakeDB α) (st : Except String α)
    (q q2 : String) (qs : List String) (r : α) :
    (db q = some r → tryQueries db st (q :: qs) = (Except.ok r, [q])) ∧
    (∀ s ss, db (q ++ s) = some r →
      trySuffixes db q st (s :: ss) = (Except.ok r, [q ++ s])) ∧
    (db q = none → q2 ∈ (tryQueries db st (q :: q2 :: qs)).2) := by
  refine ⟨?_, ?_, ?_⟩
  · intro h
    simp [tryQueries, h]
  · intro s ss h
    simp [trySuffixes, h]
  · intro h
    cases hq2 : db q2 with
    | some r2 => simp [tryQueries, h, hq2]
    | none => simp [tryQueries, h, hq2]

/-- Witness for `slave_dialect_amended` on concrete fake connections. -/
theorem slave_dialect_amended_witness :
    tryQueries slaveDialectWitnessDb (Except.error "")
        ["SHOW SLAVE STATUS", "SHOW REPLICA STATUS"] =
      (Except.ok (), ["SHOW SLAVE STATUS"]) ∧
    trySuffixes slaveDialectWitnessDb "SHOW SLAVE" (Except.error "")
        [" STATUS", ""] =
      (Except.ok (), ["SHOW SLAVE" ++ " STATUS"]) ∧
    "SHOW REPLICA STATUS" ∈
      (tryQueries slaveDialectWitnessDb (Except.error "")
        ["SHOW ALL SLAVES STATUS", "SHOW REPLICA STATUS"]).2 :=
  ⟨(slave_dialect_amended slaveDialectWitnessDb (Except.error "")
      "SHOW SLAVE STATUS" "" ["SHOW REPLICA STATUS"] ()).1 (by decide),
    (slave_dialect_amended slaveDialectWitnessDb (Except.error "")
      "SHOW SLAVE" "" [] ()).2.1 " STATUS" [""] (by decide),
    (slave_dialect_amended slaveDialectWitnessDb (Except.error "")
      "SHOW ALL SLAVES STATUS" "SHOW REPLICA STATUS" [] ()).2.2 (by decide)⟩

/-- C1 counterexample: on a connection where the first variant's bare query
fails but its first lock-hint suffix succeeds, the search does not stop at
that success — the lower-priority variant `SHOW SLAVE STATUS` is attempted
afterwards, and the resolution even ends in the last variant's error
instead of using the successful combination. -/
theorem slave_dialect_counterexample :
    slaveDialectCexDb "SHOW ALL SLAVES STATUS NONBLOCKING" = some () ∧
    "SHOW ALL SLAVES STATUS NONBLOCKING" ∈
      (resolveSlaveStatusQuery slaveDialectCexDb).2 ∧
    "SHOW SLAVE STATUS" ∈ (resolveSlaveStatusQuery slaveDialectCexDb).2 ∧
    (resolveSlaveStatusQuery slaveDialectCexDb).1 =
      Except.error "SHOW REPLICA STATUS" := by
  refine ⟨rfl, by decide, by decide, rfl⟩

/-- First-match lookup over the column pairs is invariant under permutation
when the column names are pairwise distinct. -/
theorem find?_col_perm {r1 r2 : List (String × String)} (h : r1.Perm r2)
    (hn : (r1.map Prod.fst).Nodup) (c : String) :
    r1.find? (fun p => p.1 == c) = r2.find? (fun p => p.1 == c) := by
  induction h with
  | nil => rfl
  | cons x h ih =>
      rw [List.map_cons, List.nodup_cons] at hn
      cases hx : (x.1 == c) with
      | true => simp only [List.find?_cons, hx]
      | false =>
          simp only [List.find?_cons, hx]
          exact ih hn.2
  | swap x y l =>
      rw [List.map_cons, List.map_cons, List.nodup_cons] at hn
      have hxy : y.1 ≠ x.1 := fun he => hn.1 (by rw [he]; exact List.mem_cons_self _ _)
      cases hx : (x.1 == c) with
      | true =>
          have hy : (y.1 == c) = false := by
            rw [beq_eq_false_iff_ne]
            exact fun he => hxy (he.trans (beq_iff_eq.mp hx).symm)
          simp only [List.find?_cons, hx, hy]
      | false =>
          cases hy : (y.1 == c) with
          | true => simp only [List.find?_cons, hx, hy]
          | false => simp only [List.find?_cons, hx, hy]
  | trans h1 h2 ih1 ih2 =>
      have hn2 := ((h1.map Prod.fst).nodup_iff).mp hn
      exact (ih1 hn).trans (ih2 hn2)

/-- C5 (amended): for rows with pairwise-distinct column names, permuting
the (column name, raw value) pairs yields the same multiset of emitted
metrics — identical names, label values and numeric values. -/
theorem column_order_independent_amended (r1 r2 : List (String × String))
    (hperm : r1.Perm r2) (hnodup : (r1.map Prod.fst).Nodup) :
    (processSlaveStatusRow r1).Perm (processSlaveStatusRow r2) := by
  have hcv : ∀ c, columnValue (r1.map Prod.snd) (r1.map Prod.fst) c =
      columnValue (r2.map Prod.snd) (r2.map Prod.fst) c := by
    intro c
    rw [columnValue_pairs, columnValue_pairs]
    unfold lookupColumn
    rw [find?_col_perm hperm hnodup]
  have hmh : resolvedMasterHost r1 = resolvedMasterHost r2 := by
    unfold resolvedMasterHost
    rw [hcv "Master_Host", hcv "Source_Host"]
  have hmu : resolvedMasterUUID r1 = resolvedMasterUUID r2 := by
    unfold resolvedMasterUUID
    rw [hcv "Master_UUID", hcv "Source_UUID"]
  have hch : resolvedChannelName r1 = resolvedChannelName r2 := by
    unfold resolvedChannelName
    rw [hcv "Channel_Name"]
  have hcn : resolvedConnectionName r1 = resolvedConnectionName r2 := by
    unfold resolvedConnectionName
    rw [hcv "Connection_name"]
  have hlab : slaveStatusLabelValues r1 = slaveStatusLabelValues r2 := by
    unfold slaveStatusLabelValues
    rw [hmh, hmu, hch, hcn]
  have hgen : (genericSlaveMetrics (slaveStatusLabelValues r2) r1).Perm
      (genericSlaveMetrics (slaveStatusLabelValues r2) r2) := by
    rw [genericSlaveMetrics_eq_filterMap, genericSlaveMetrics_eq_filterMap]
    exact hperm.filterMap _
  unfold processSlaveStatusRow
  rw [hlab, hmh, hmu, hch, hcn, hcv "Gtid_IO_Pos", hcv "Gtid_Slave_Pos"]
  exact (hgen.append_right _).append_right _

/-- Witness for `column_order_independent_amended` on a duplicate-free
two-column row and its reversal. -/
theorem column_order_independent_amended_witness :
    (processSlaveStatusRow columnOrderWRow1).Perm
      (processSlaveStatusRow columnOrderWRow2) :=
  column_order_independent_amended columnOrderWRow1 columnOrderWRow2
    (by decide) (by decide)

/-- C5 counterexample: the two rows are permutations of each other (they
duplicate the `Master_Host` column with different values), yet the emitted
metric multisets differ — the generic metric for `Seconds_Behind_Master`
carries label value "a" in one order and "b" in the other. -/
theorem column_order_counterexample :
    columnOrderRow1.Perm columnOrderRow2 ∧
    ¬ (processSlaveStatusRow columnOrderRow1).Perm
        (processSlaveStatusRow columnOrderRow2) := by
  constructor
  · decide
  · decide
